import Mathlib

/-!
Verification of the deployment orchestration core of src/app.py
(class DeploymentPlatform).

Shallow embedding conventions:
* External effects are passed as explicit inputs: the truncated uuid
  str(uuid.uuid4())[:8] becomes the gen_id argument, time.time() becomes
  the now argument, and whether the background deployment body raised an
  exception (file system or socket errors) becomes the outcome argument,
  carrying the str() of the raised exception when there is one.
* Python dicts that are used keyed by strings become association lists
  with Python dict semantics: assignment overwrites in place, lookup
  takes the unique binding of a key.
* The JSON layer (json.dump and json.load) is modelled by the JVal value
  type; json.load of the text produced by json.dump returns a value equal
  to the dumped one, so save_data produces a JVal document and load_data
  consumes one.
* Threads: create_deployment spawns one background thread per call with
  arguments captured at creation; a trace (List Event) interleaves the
  synchronous create calls and the atomic completions of those background
  bodies, each background body running at most once.
-/

set_option maxHeartbeats 1000000
set_option linter.unusedVariables false

namespace DeployPlat

/-- Deployment status strings used by the platform: the source writes
the literals "deploying", "live" and "failed". -/
inductive Status where
  | deploying
  | live
  | failed
deriving DecidableEq, Repr

/-- The body of one uploaded file: Python str content or bytes content
(src/app.py line 101 branches on isinstance(content, str)). -/
inductive FileBody where
  | text (s : String)
  | blob (bytes : List Nat)
deriving DecidableEq, Repr

/-- The files_data mapping of create_deployment: relative filename to content. -/
abbrev Files := List (String × FileBody)

/-- One deployment record, with the keys built by create_deployment
(src/app.py lines 71 to 79); the deployed_at and error keys are absent at
creation and added later by the background task, hence Option fields. -/
structure Deployment where
  id : String
  project_name : String
  status : Status
  port : Nat
  url : String
  created_at : Nat
  github_repo : Option String
  deployed_at : Option Nat := none
  error : Option String := none
deriving DecidableEq, Repr

/-- The mutable in-memory state of DeploymentPlatform that the claims
concern: self.deployments and self.next_port. self.projects, self.users
and self.github_tokens are never written by the orchestration flows. -/
structure PlatformState where
  deployments : List (String × Deployment)
  next_port : Nat
deriving DecidableEq, Repr

/-- self.base_port (src/app.py line 26). -/
def base_port : Nat := 8001

/-- Python dict lookup d[k] or d.get(k), as an Option. -/
def dictGet {α : Type} (l : List (String × α)) (k : String) : Option α :=
  match l with
  | [] => none
  | (k1, v1) :: rest => if k1 = k then some v1 else dictGet rest k

/-- Python dict assignment d[k] = v: overwrite the binding in place when
the key exists, otherwise append a new binding. -/
def dictInsert {α : Type} (l : List (String × α)) (k : String) (v : α) :
    List (String × α) :=
  match l with
  | [] => [(k, v)]
  | (k1, v1) :: rest =>
    if k1 = k then (k, v) :: rest else (k1, v1) :: dictInsert rest k v

/-- In-place mutation of the record stored under key k, when present;
when the key is absent nothing changes (in the source an absent key
raises KeyError in both branches of _deploy_project before any mutation,
so the map is left unchanged there as well). -/
def dictModify {α : Type} (l : List (String × α)) (k : String) (f : α → α) :
    List (String × α) :=
  match l with
  | [] => []
  | (k1, v1) :: rest =>
    if k1 = k then (k1, f v1) :: rest else (k1, v1) :: dictModify rest k f

/-- Result of one create_deployment call: the returned record, the new
in-memory state, and the background job handed to the spawned thread
(its captured arguments deployment_id and files_data). -/
structure CreateResult where
  deployment : Deployment
  state : PlatformState
  job : String × Option Files
deriving DecidableEq, Repr

/-- create_deployment (src/app.py lines 62 to 87). gen_id stands for the
value of str(uuid.uuid4())[:8] and now for time.time(). The function
allocates the next port, stores a record with status deploying, and
returns before the background thread runs. -/
def create_deployment (s : PlatformState) (gen_id : String) (now : Nat)
    (project_name : String) (files_data : Option Files)
    (github_repo : Option String) : CreateResult :=
  let deployment_id := gen_id
  let deploy_port := s.next_port
  let deployment : Deployment :=
    { id := deployment_id
      project_name := project_name
      status := Status.deploying
      port := deploy_port
      url := "http://localhost:" ++ toString deploy_port
      created_at := now
      github_repo := github_repo }
  { deployment := deployment
    state :=
      { deployments := dictInsert s.deployments deployment_id deployment
        next_port := deploy_port + 1 }
    job := (deployment_id, files_data) }

/-- The success mutation of _deploy_project (src/app.py lines 137 to 138):
status set to live and deployed_at stamped. -/
def set_live (d : Deployment) (now : Nat) : Deployment :=
  { d with status := Status.live, deployed_at := some now }

/-- The except branch of _deploy_project (src/app.py lines 143 to 144):
status set to failed and error set to str(e). -/
def set_failed (d : Deployment) (msg : String) : Deployment :=
  { d with status := Status.failed, error := some msg }

/-- The state effect of one complete run of _deploy_project
(src/app.py lines 89 to 145). outcome none models a run in which no step
raised; outcome (some msg) models a run in which some step (file write,
server start) raised an exception whose str() is msg, routed to the
except branch. files_data only affects the file system, not this state. -/
def deploy_project (deps : List (String × Deployment)) (deployment_id : String)
    (files_data : Option Files) (outcome : Option String) (now : Nat) :
    List (String × Deployment) :=
  match outcome with
  | none => dictModify deps deployment_id (fun d => set_live d now)
  | some msg => dictModify deps deployment_id (fun d => set_failed d msg)

/-- One observable event of the concurrent system: a synchronous
create_deployment call, or the completion of the background body spawned
by the k-th create call (k counted from 0 in creation order). -/
inductive Event where
  | create (gen_id : String) (now : Nat) (project_name : String)
      (files_data : Option Files) (github_repo : Option String)
  | finish (k : Nat) (outcome : Option String) (now : Nat)
deriving DecidableEq, Repr

/-- Whole-system state: the platform state, the list of background jobs
spawned so far in creation order, the indices of jobs whose thread has
already run, and the history of records returned by create (id, port). -/
structure Sys where
  st : PlatformState
  jobs : List (String × Option Files)
  ran : List Nat
  created : List (String × Nat)
deriving DecidableEq, Repr

/-- One step of the system. A finish event for an index that was already
run, or that names no spawned job, does nothing: each thread runs once. -/
def step (σ : Sys) (e : Event) : Sys :=
  match e with
  | Event.create gid now name files repo =>
    let r := create_deployment σ.st gid now name files repo
    { st := r.state
      jobs := σ.jobs ++ [r.job]
      ran := σ.ran
      created := σ.created ++ [(r.deployment.id, r.deployment.port)] }
  | Event.finish k outcome now =>
    if k ∈ σ.ran then σ
    else
      match σ.jobs[k]? with
      | none => σ
      | some j =>
        { st :=
            { deployments := deploy_project σ.st.deployments j.1 j.2 outcome now
              next_port := σ.st.next_port }
          jobs := σ.jobs
          ran := k :: σ.ran
          created := σ.created }

/-- The state of a freshly started platform with no data file: empty
deployments, next_port = base_port (src/app.py lines 21 to 27). -/
def init : Sys := ⟨⟨[], base_port⟩, [], [], []⟩

/-- Run a trace of events from the fresh platform. -/
def run (es : List Event) : Sys := es.foldl step init

/-- The generated uuid prefixes of the create events of a trace, in order. -/
def createGids : List Event → List String :=
  List.filterMap (fun e =>
    match e with
    | Event.create gid _ _ _ _ => some gid
    | _ => none)

/-- os.path.join for a first component that is nonempty and has no
trailing slash, as "deployments/<id>" always is: an absolute second
component discards the first, otherwise the components are joined with
a slash. -/
def pyPathJoin (a b : String) : String :=
  if b.startsWith "/" then b else a ++ "/" ++ b

/-- Text of the default index.html up to the first interpolation of
deployment["project_name"] (src/app.py lines 110 to 115). -/
def defaultHtmlPre : String :=
  "<!DOCTYPE html>\n<html lang=\"en\">\n<head>\n    <meta charset=\"UTF-8\">\n    <meta name=\"viewport\" content=\"width=device-width, initial-scale=1.0\">\n    <title>"

/-- Text between the two interpolations of deployment["project_name"]
(src/app.py lines 115 to 126); the doubled braces of the f-string come
out as single literal braces. -/
def defaultHtmlMid : String :=
  "</title>\n    <style>\n        body \x7b font-family: system-ui, -apple-system, sans-serif; margin: 0; padding: 40px; background: #f8fafc; \x7d\n        .container \x7b max-width: 800px; margin: 0 auto; text-align: center; \x7d\n        h1 \x7b color: #1e293b; margin-bottom: 16px; \x7d\n        p \x7b color: #64748b; font-size: 18px; \x7d\n        .badge \x7b background: #10b981; color: white; padding: 8px 16px; border-radius: 20px; display: inline-block; margin-top: 20px; \x7d\n    </style>\n</head>\n<body>\n    <div class=\"container\">\n        <h1>🚀 "

/-- Text after the second interpolation of deployment["project_name"]
(src/app.py lines 126 to 131). -/
def defaultHtmlPost : String :=
  "</h1>\n        <p>Your project has been successfully deployed!</p>\n        <div class=\"badge\">Live on Python Deploy Platform</div>\n    </div>\n</body>\n</html>"

/-- The synthesized default page written when no files are provided
(src/app.py lines 109 to 131): the f-string template with project_name
interpolated twice. -/
def defaultHtml (name : String) : String :=
  defaultHtmlPre ++ name ++ defaultHtmlMid ++ name ++ defaultHtmlPost

/-- The file writes performed by _deploy_project under the deployment
directory (src/app.py lines 95 to 131). Python evaluates
"if files_data:" as false both for None and for an empty dict, so both
cases synthesize the default page; otherwise each entry is written under
os.path.join of the deployment directory and the entry name.
project_name is read from the stored record of the deployment. -/
def provision_writes (deployment_id : String) (project_name : String)
    (files_data : Option Files) : List (String × FileBody) :=
  let deployment_dir := "deployments/" ++ deployment_id
  match files_data with
  | some fs =>
    if fs.isEmpty then
      [(deployment_dir ++ "/index.html", FileBody.text (defaultHtml project_name))]
    else
      fs.map (fun fc => (pyPathJoin deployment_dir fc.1, fc.2))
  | none =>
    [(deployment_dir ++ "/index.html", FileBody.text (defaultHtml project_name))]

/-- JSON values, the common currency of json.dump and json.load.
json.load applied to the text produced by json.dump returns an equal
JVal, so the document itself stands for the file content. -/
inductive JVal where
  | jnull
  | jbool (b : Bool)
  | jnum (n : Int)
  | jstr (s : String)
  | jarr (elems : List JVal)
  | jobj (fields : List (String × JVal))

/-- The in-memory Python values of the three persisted attributes
self.deployments, self.projects and self.next_port, at JSON-value level:
the code assigns whatever json.load produced without any conversion, so
after a load these attributes can hold arbitrary JSON values. -/
structure PyState where
  deployments : JVal
  projects : JVal
  next_port : JVal

/-- save_data (src/app.py lines 49 to 60): the document handed to
json.dump, a dict with the three persisted fields in insertion order. -/
def save_data (s : PyState) : JVal :=
  JVal.jobj
    [("deployments", s.deployments), ("projects", s.projects),
     ("next_port", s.next_port)]

/-- What the state file platform_data.json can look like to load_data:
missing (os.path.exists false), present but not readable as JSON
(open or json.load raises), or parsed to a JSON value. -/
inductive StoredFile where
  | absent
  | unparsable
  | parsed (v : JVal)

/-- load_data (src/app.py lines 37 to 47). prior is the state the
attributes hold before the call (the defaults set by lines 22 to 27 when
called from the constructor). A missing file skips the body; a raising
open or json.load is caught by the except branch before any attribute is
assigned; a parsed non-object makes data.get raise AttributeError, also
caught before any assignment; a parsed object is read field by field with
dict.get defaults and no schema validation. -/
def load_data (file : StoredFile) (prior : PyState) : PyState :=
  match file with
  | StoredFile.absent => prior
  | StoredFile.unparsable => prior
  | StoredFile.parsed v =>
    match v with
    | JVal.jobj fields =>
      { deployments := (dictGet fields "deployments").getD (JVal.jobj [])
        projects := (dictGet fields "projects").getD (JVal.jobj [])
        next_port := (dictGet fields "next_port").getD (JVal.jnum (base_port : Int)) }
    | _ => prior

/-- The defaults set by the constructor before load_data runs
(src/app.py lines 22 to 27), at JSON-value level. -/
def defaultsPy : PyState :=
  ⟨JVal.jobj [], JVal.jobj [], JVal.jnum (base_port : Int)⟩

/-- The status string stored in a record. -/
def encStatus : Status → String
  | Status.deploying => "deploying"
  | Status.live => "live"
  | Status.failed => "failed"

/-- Python None or a string, as a JSON value. -/
def encOptStr : Option String → JVal
  | none => JVal.jnull
  | some s => JVal.jstr s

/-- The JSON value of one deployment record dict, keys in insertion
order: the seven keys written by create_deployment, then deployed_at when
the record went live, then error when the record failed. -/
def encDeployment (d : Deployment) : JVal :=
  JVal.jobj
    ([("id", JVal.jstr d.id), ("project_name", JVal.jstr d.project_name),
      ("status", JVal.jstr (encStatus d.status)), ("port", JVal.jnum (d.port : Int)),
      ("url", JVal.jstr d.url), ("created_at", JVal.jnum (d.created_at : Int)),
      ("github_repo", encOptStr d.github_repo)]
     ++ (match d.deployed_at with
         | some t => [("deployed_at", JVal.jnum (t : Int))]
         | none => [])
     ++ (match d.error with
         | some msg => [("error", JVal.jstr msg)]
         | none => []))

/-- The JSON value of the whole deployments dict. -/
def encDeployments (deps : List (String × Deployment)) : JVal :=
  JVal.jobj (deps.map (fun kv => (kv.1, encDeployment kv.2)))

/-- The JSON view of an orchestration state: self.projects stays the
empty dict throughout, since no code path ever writes it. -/
def encState (s : PlatformState) : PyState :=
  { deployments := encDeployments s.deployments
    projects := JVal.jobj []
    next_port := JVal.jnum (s.next_port : Int) }

/-- Claim C4 as stated: a create_deployment call with an empty
project_name leaves the deployments map and the port counter unchanged
(the record is never created). The source performs no validation, so
this fails. -/
def C4Statement : Prop :=
  ∀ (s : PlatformState) (gid : String) (now : Nat) (files : Option Files)
    (repo : Option String),
    (create_deployment s gid now "" files repo).state.deployments = s.deployments
    ∧ (create_deployment s gid now "" files repo).state.next_port = s.next_port

/-- A parsable JSON object that does not conform to the persisted
schema: every field has the wrong type. json.load accepts it. -/
def corruptDoc : JVal :=
  JVal.jobj
    [("deployments", JVal.jstr "garbage"), ("projects", JVal.jnull),
     ("next_port", JVal.jstr "oops")]

/-- Claim C1 as stated: along every trace, the ids returned by the
create calls are pairwise distinct and so are the ports. The ports part
holds; the ids are raw truncated uuid values stored without any
collision check, so a trace in which the generator repeats an
8-character prefix refutes the ids part. -/
def C1Statement : Prop :=
  ∀ es : List Event,
    ((run es).created.map Prod.fst).Nodup
    ∧ ((run es).created.map Prod.snd).Nodup

/-- Every spawned job names a record that is present in the deployments
map: create_deployment stores the record under the id it hands to its
background thread, and records are never removed. Holds on every trace,
including traces with colliding generated ids. -/
def JobsInMap (σ : Sys) : Prop :=
  ∀ (k : Nat) (j : String × Option Files),
    σ.jobs[k]? = some j → (dictGet σ.st.deployments j.1).isSome

/-- The inductive invariant of traces whose generated ids are pairwise
distinct: job ids are distinct, every record id was created by some job,
a record is deploying exactly when its job has not yet run, deployed_at
is set exactly on live records, and run indices name spawned jobs. -/
structure GoodSys (σ : Sys) : Prop where
  nodup : (σ.jobs.map Prod.fst).Nodup
  mapSub : ∀ id d, dictGet σ.st.deployments id = some d → id ∈ σ.jobs.map Prod.fst
  statusRan : ∀ k j d, σ.jobs[k]? = some j →
      dictGet σ.st.deployments j.1 = some d →
      (d.status = Status.deploying ↔ k ∉ σ.ran)
  depLive : ∀ id d, dictGet σ.st.deployments id = some d →
      (d.deployed_at.isSome ↔ d.status = Status.live)
  ranBound : ∀ k, k ∈ σ.ran → k < σ.jobs.length

/-- Freshness of one event against a system state: a create event must
carry a generated id not used by any earlier create. -/
def FreshEvent (σ : Sys) : Event → Prop
  | Event.create gid _ _ _ _ => gid ∉ σ.jobs.map Prod.fst
  | Event.finish _ _ _ => True

/-- Freshness of a whole continuation of a trace. -/
def FreshList (σ : Sys) : List Event → Prop
  | [] => True
  | e :: es => FreshEvent σ e ∧ FreshList (step σ e) es


/-- Claim C5 as stated: once a record is live or failed, no later
operation changes its status, on every trace. The source keys records by
the raw truncated uuid, so a collision makes two background bodies
mutate one record, refuting this. -/
def C5Statement : Prop :=
  ∀ (es es' : List Event) (id : String) (d d' : Deployment),
    dictGet (run es).st.deployments id = some d →
    (d.status = Status.live ∨ d.status = Status.failed) →
    dictGet (run (es ++ es')).st.deployments id = some d' →
    d'.status = d.status

/-- Claim C8 as stated: on every trace, a record carries deployed_at
exactly when its status is live. An id collision lets a failing
background body inherit the deployed_at stamped by the successful one,
refuting this. -/
def C8Statement : Prop :=
  ∀ (es : List Event) (id : String) (d : Deployment),
    dictGet (run es).st.deployments id = some d →
    (d.deployed_at.isSome ↔ d.status = Status.live)

/-- Claim C3 as stated: when a background body raises, the record ends
failed with a NON-EMPTY error string, stays in the map, and the
exception does not reach the create caller. Python str(e) can be empty,
and the code stores it unconditionally, refuting the non-empty part. -/
def C3Statement : Prop :=
  ∀ (es : List Event) (k : Nat) (msg : String) (now : Nat)
    (j : String × Option Files),
    (run es).jobs[k]? = some j → k ∉ (run es).ran →
    ∃ d, dictGet (run (es ++ [Event.finish k (some msg) now])).st.deployments j.1
          = some d
      ∧ d.status = Status.failed
      ∧ ∃ s, d.error = some s ∧ s ≠ ""

theorem dictGet_insert_self {α : Type} (l : List (String × α)) (k : String) (v : α) :
    dictGet (dictInsert l k v) k = some v := by
  induction l with
  | nil => simp [dictGet, dictInsert]
  | cons hd tl ih =>
    obtain ⟨k1, v1⟩ := hd
    by_cases h : k1 = k
    · simp [dictGet, dictInsert, h]
    · simp [dictGet, dictInsert, h, ih]

theorem dictGet_insert_other {α : Type} (l : List (String × α)) (k k1 : String)
    (v : α) (h : k1 ≠ k) : dictGet (dictInsert l k v) k1 = dictGet l k1 := by
  have hk : ¬ k = k1 := fun hh => h hh.symm
  induction l with
  | nil => simp [dictGet, dictInsert, hk]
  | cons hd tl ih =>
    obtain ⟨k2, v2⟩ := hd
    by_cases h2 : k2 = k
    · subst h2
      simp [dictGet, dictInsert, hk]
    · simp only [dictInsert, if_neg h2]
      simp only [dictGet]
      by_cases h3 : k2 = k1
      · simp [h3]
      · simp [h3, ih]

theorem dictGet_modify_self {α : Type} (l : List (String × α)) (k : String)
    (f : α → α) : dictGet (dictModify l k f) k = (dictGet l k).map f := by
  induction l with
  | nil => simp [dictGet, dictModify]
  | cons hd tl ih =>
    obtain ⟨k1, v1⟩ := hd
    by_cases h : k1 = k
    · simp [dictGet, dictModify, h]
    · simp [dictGet, dictModify, h, ih]

theorem dictGet_modify_other {α : Type} (l : List (String × α)) (k k1 : String)
    (f : α → α) (h : k1 ≠ k) : dictGet (dictModify l k f) k1 = dictGet l k1 := by
  have hk : ¬ k = k1 := fun hh => h hh.symm
  induction l with
  | nil => simp [dictGet, dictModify]
  | cons hd tl ih =>
    obtain ⟨k2, v2⟩ := hd
    by_cases h2 : k2 = k
    · subst h2
      simp [dictGet, dictModify, hk]
    · simp only [dictModify, if_neg h2]
      simp only [dictGet]
      by_cases h3 : k2 = k1
      · simp [h3]
      · simp [h3, ih]

theorem dictGet_modify_isSome {α : Type} (l : List (String × α)) (k k1 : String)
    (f : α → α) :
    (dictGet (dictModify l k f) k1).isSome = (dictGet l k1).isSome := by
  by_cases h : k1 = k
  · subst h; rw [dictGet_modify_self]; cases dictGet l k1 <;> simp
  · rw [dictGet_modify_other l k k1 f h]

theorem run_append (es es' : List Event) :
    run (es ++ es') = es'.foldl step (run es) := by
  simp [run, List.foldl_append]

theorem run_concat (es : List Event) (e : Event) :
    run (es ++ [e]) = step (run es) e := by
  simp [run_append, List.foldl]

theorem encStatus_eq_iff (a b : Status) : encStatus a = encStatus b ↔ a = b := by
  constructor
  · intro h
    cases a <;> cases b <;> first | rfl | exact absurd h (by decide)
  · intro h; rw [h]

theorem encOptStr_eq_iff (a b : Option String) : encOptStr a = encOptStr b ↔ a = b := by
  constructor
  · intro h
    cases a <;> cases b <;> simp_all [encOptStr]
  · intro h; rw [h]

theorem encDeployment_inj (d e : Deployment)
    (h : encDeployment d = encDeployment e) : d = e := by
  cases d with
  | mk id1 pn1 st1 p1 u1 c1 g1 da1 er1 =>
  cases e with
  | mk id2 pn2 st2 p2 u2 c2 g2 da2 er2 =>
  cases da1 <;> cases er1 <;> cases da2 <;> cases er2 <;>
    simp_all [encDeployment, encStatus_eq_iff, encOptStr_eq_iff]

theorem encDeployments_inj : Function.Injective encDeployments := by
  intro l1 l2 h
  have hf : Function.Injective
      (fun kv : String × Deployment => (kv.1, encDeployment kv.2)) := by
    intro p q hh
    obtain ⟨a, x⟩ := p
    obtain ⟨b, y⟩ := q
    simp only [Prod.mk.injEq] at hh ⊢
    exact ⟨hh.1, encDeployment_inj _ _ hh.2⟩
  rw [encDeployments, encDeployments] at h
  injection h with h1
  exact List.map_injective_iff.mpr hf h1

theorem encState_inj : Function.Injective encState := by
  intro s t h
  obtain ⟨d1, n1⟩ := s
  obtain ⟨d2, n2⟩ := t
  simp only [encState, PyState.mk.injEq] at h
  obtain ⟨h1, _, h3⟩ := h
  injection h3 with h3
  simp only [PlatformState.mk.injEq]
  exact ⟨encDeployments_inj h1, by exact_mod_cast h3⟩

/-- Claim C7: immediately after create_deployment returns, the returned
record is in the deployments map exposed by queries, with status
deploying, and no background job has run as part of the create step. -/
theorem c7_record_visible_immediately (es : List Event) (gid : String) (now : Nat)
    (name : String) (files : Option Files) (repo : Option String) :
    dictGet (run (es ++ [Event.create gid now name files repo])).st.deployments gid
      = some (create_deployment (run es).st gid now name files repo).deployment
    ∧ (create_deployment (run es).st gid now name files repo).deployment.status
      = Status.deploying
    ∧ (run (es ++ [Event.create gid now name files repo])).ran = (run es).ran := by
  rw [run_concat]
  exact ⟨dictGet_insert_self _ _ _, rfl, rfl⟩

/-- Claim C4, counterexample: on the fresh platform, create_deployment
with project_name "" still advances the port counter (and creates a
record), refuting the claim that nothing changes. -/
theorem c4_counterexample : ¬ C4Statement := by
  intro h
  have h2 := (h ⟨[], base_port⟩ "a" 0 none none).2
  simp [create_deployment, base_port] at h2

/-- Claim C4, amended: create_deployment performs no validation at all;
with an empty project_name it returns normally, stores a record whose
project_name is "", and advances the port counter. -/
theorem c4_no_validation (s : PlatformState) (gid : String) (now : Nat)
    (files : Option Files) (repo : Option String) :
    (create_deployment s gid now "" files repo).deployment.project_name = ""
    ∧ dictGet (create_deployment s gid now "" files repo).state.deployments gid
        = some (create_deployment s gid now "" files repo).deployment
    ∧ (create_deployment s gid now "" files repo).state.next_port
        = s.next_port + 1 :=
  ⟨rfl, dictGet_insert_self _ _ _, rfl⟩

/-- Claim C10: github_repo never affects provisioning. The background
job captured by the spawned thread is identical with and without
github_repo, the repository reference is stored on the record, and a
call with no files materializes exactly one file, the synthesized
default page embedding project_name twice (an empty files dict is falsy
in Python and takes the same default branch). -/
theorem c10_github_repo_inert (s : PlatformState) (gid : String) (now : Nat)
    (name : String) (files : Option Files) (repo : String) :
    (create_deployment s gid now name files (some repo)).job
      = (create_deployment s gid now name files none).job
    ∧ (create_deployment s gid now name files (some repo)).state.next_port
      = (create_deployment s gid now name files none).state.next_port
    ∧ (create_deployment s gid now name files (some repo)).deployment.github_repo
      = some repo
    ∧ provision_writes gid name none
      = [("deployments/" ++ gid ++ "/index.html", FileBody.text (defaultHtml name))]
    ∧ provision_writes gid name (some [])
      = [("deployments/" ++ gid ++ "/index.html", FileBody.text (defaultHtml name))]
    ∧ defaultHtml name
      = defaultHtmlPre ++ name ++ defaultHtmlMid ++ name ++ defaultHtmlPost :=
  ⟨rfl, rfl, rfl, rfl, rfl, rfl⟩

/-- Claim C6: saving any state and loading it back reproduces the state
exactly: the three loaded attributes are precisely the saved ones, for
every state (hence for every reachable one), and the JSON view of an
orchestration state determines the state, so nothing is lost. -/
theorem c6_save_load_roundtrip (S : PlatformState) (prior : PyState) :
    load_data (StoredFile.parsed (save_data (encState S))) prior = encState S
    ∧ (∀ T : PlatformState, encState S = encState T → S = T) := by
  constructor
  · rfl
  · intro T h
    exact encState_inj h

/-- Claim C6, witness: the round trip and the injectivity instantiated
on the fresh platform state. -/
theorem c6_witness :
    load_data (StoredFile.parsed (save_data (encState ⟨[], base_port⟩))) defaultsPy
      = encState ⟨[], base_port⟩
    ∧ (⟨[], base_port⟩ : PlatformState) = ⟨[], base_port⟩ :=
  ⟨(c6_save_load_roundtrip ⟨[], base_port⟩ defaultsPy).1,
   (c6_save_load_roundtrip ⟨[], base_port⟩ defaultsPy).2 ⟨[], base_port⟩ rfl⟩

/-- Claim C9, counterexample: corrupt but parsable content does not fall
back to the defaults: load_data accepts the schema-violating document
as-is, storing the string "oops" as next_port instead of 8001. -/
theorem c9_counterexample :
    load_data (StoredFile.parsed corruptDoc) defaultsPy ≠ defaultsPy := by
  intro h
  have h3 := congrArg PyState.next_port h
  rw [show (load_data (StoredFile.parsed corruptDoc) defaultsPy).next_port
        = JVal.jstr "oops" from rfl] at h3
  exact JVal.noConfusion h3

/-- Claim C9, amended: load_data is total (never raises): a missing
file, unparsable content, and parsable non-object content all keep the
prior attribute values (the constructor defaults at startup), while a
parsable JSON object is loaded field by field with per-field defaults
and no schema validation, so corrupt-but-parsable object content is
accepted as-is rather than defaulted. -/
theorem c9_load_total_defaults :
    (∀ prior, load_data StoredFile.absent prior = prior)
    ∧ (∀ prior, load_data StoredFile.unparsable prior = prior)
    ∧ (∀ prior v, (∀ fields, v ≠ JVal.jobj fields) →
        load_data (StoredFile.parsed v) prior = prior)
    ∧ (∀ prior fields, load_data (StoredFile.parsed (JVal.jobj fields)) prior =
        ⟨(dictGet fields "deployments").getD (JVal.jobj []),
         (dictGet fields "projects").getD (JVal.jobj []),
         (dictGet fields "next_port").getD (JVal.jnum (base_port : Int))⟩) := by
  refine ⟨fun _ => rfl, fun _ => rfl, ?_, fun _ _ => rfl⟩
  intro prior v hv
  cases v with
  | jobj fields => exact absurd rfl (hv fields)
  | jnull => rfl
  | jbool b => rfl
  | jnum n => rfl
  | jstr s => rfl
  | jarr l => rfl

/-- Claim C9, witness: parsable non-object content (an empty JSON array)
keeps the startup defaults. -/
theorem c9_witness :
    load_data (StoredFile.parsed (JVal.jarr [])) defaultsPy = defaultsPy :=
  c9_load_total_defaults.2.2.1 defaultsPy (JVal.jarr [])
    (fun _ h => JVal.noConfusion h)

theorem createGids_cons_create (gid : String) (now : Nat) (name : String)
    (files : Option Files) (repo : Option String) (es : List Event) :
    createGids (Event.create gid now name files repo :: es)
      = gid :: createGids es := rfl

theorem createGids_cons_finish (k : Nat) (outcome : Option String) (now : Nat)
    (es : List Event) :
    createGids (Event.finish k outcome now :: es) = createGids es := rfl

theorem createGids_append (es es' : List Event) :
    createGids (es ++ es') = createGids es ++ createGids es' :=
  List.filterMap_append es es' _

theorem step_finish_fields (σ : Sys) (k : Nat) (outcome : Option String)
    (now : Nat) :
    (step σ (Event.finish k outcome now)).created = σ.created
    ∧ (step σ (Event.finish k outcome now)).jobs = σ.jobs
    ∧ (step σ (Event.finish k outcome now)).st.next_port = σ.st.next_port := by
  simp only [step]
  by_cases hk : k ∈ σ.ran
  · simp [hk]
  · cases h : σ.jobs[k]? <;> simp [hk, h]

/-- Evolution of the creation history along any trace: each create call
returns the current next_port and advances it by one, so the ports of
the created records, in order, are the integer interval starting at the
initial next_port; the ids are the generated uuid prefixes in order, and
the spawned jobs carry those same ids. -/
theorem run_history (es : List Event) : ∀ σ : Sys,
    ((es.foldl step σ).created.map Prod.snd
      = σ.created.map Prod.snd ++ List.range' σ.st.next_port (createGids es).length)
    ∧ ((es.foldl step σ).st.next_port = σ.st.next_port + (createGids es).length)
    ∧ ((es.foldl step σ).created.map Prod.fst
      = σ.created.map Prod.fst ++ createGids es)
    ∧ ((es.foldl step σ).jobs.map Prod.fst
      = σ.jobs.map Prod.fst ++ createGids es) := by
  induction es with
  | nil => intro σ; simp [createGids]
  | cons e es ih =>
    intro σ
    cases e with
    | create gid now name files repo =>
      obtain ⟨h1, h2, h3, h4⟩ := ih (step σ (Event.create gid now name files repo))
      rw [List.foldl_cons, createGids_cons_create]
      refine ⟨?_, ?_, ?_, ?_⟩
      · rw [h1, List.length_cons, List.range'_succ]
        simp [step, create_deployment, List.append_assoc]
      · rw [h2]
        simp [step, create_deployment]
        omega
      · rw [h3]
        simp [step, create_deployment, List.append_assoc]
      · rw [h4]
        simp [step, create_deployment, List.append_assoc]
    | finish k outcome now =>
      obtain ⟨hf1, hf2, hf3⟩ := step_finish_fields σ k outcome now
      obtain ⟨h1, h2, h3, h4⟩ := ih (step σ (Event.finish k outcome now))
      rw [List.foldl_cons, createGids_cons_finish]
      exact ⟨by rw [h1, hf1, hf3], by rw [h2, hf3], by rw [h3, hf1],
             by rw [h4, hf2]⟩

theorem run_created_snd (es : List Event) :
    (run es).created.map Prod.snd = List.range' base_port (createGids es).length := by
  have h := (run_history es init).1
  simpa [init] using h

theorem run_created_fst (es : List Event) :
    (run es).created.map Prod.fst = createGids es := by
  have h := (run_history es init).2.2.1
  simpa [init] using h

theorem run_jobs_fst (es : List Event) :
    (run es).jobs.map Prod.fst = createGids es := by
  have h := (run_history es init).2.2.2
  simpa [init] using h

theorem run_next_port (es : List Event) :
    (run es).st.next_port = base_port + (createGids es).length := by
  have h := (run_history es init).2.1
  simpa [init] using h

/-- Claim C1, counterexample: two create calls whose generated uuid
prefixes coincide return two deployments with the same id. -/
theorem c1_counterexample : ¬ C1Statement := by
  intro h
  have h1 := (h [Event.create "a" 0 "p" none none,
                 Event.create "a" 1 "q" none none]).1
  rw [run_created_fst] at h1
  exact absurd h1 (by decide)

/-- Claim C1, amended: the returned ports are always pairwise distinct;
the returned ids are the generated uuid prefixes, so they are pairwise
distinct exactly when the generated values are (which the code does not
check). -/
theorem c1_ports_unique_ids_conditional (es : List Event) :
    ((run es).created.map Prod.snd).Nodup
    ∧ ((createGids es).Nodup → ((run es).created.map Prod.fst).Nodup) := by
  constructor
  · rw [run_created_snd]
    exact List.nodup_range' _ _
  · intro h
    rw [run_created_fst]
    exact h

/-- Claim C1, witness: with two distinct generated ids, both the ids and
the ports of the two created deployments are pairwise distinct. -/
theorem c1_witness :
    ((run [Event.create "a" 0 "p" none none,
           Event.create "b" 1 "q" none none]).created.map Prod.snd).Nodup
    ∧ ((run [Event.create "a" 0 "p" none none,
             Event.create "b" 1 "q" none none]).created.map Prod.fst).Nodup :=
  ⟨(c1_ports_unique_ids_conditional _).1,
   (c1_ports_unique_ids_conditional _).2 (by decide)⟩

/-- Claim C2: ports are handed out in strictly increasing creation
order along every trace, and a port value handed out once is never
returned again. -/
theorem c2_ports_strictly_increasing (es : List Event) (i j : Nat)
    (hi : i < (run es).created.length) (hj : j < (run es).created.length)
    (hij : i < j) :
    ((run es).created.get ⟨i, hi⟩).2 < ((run es).created.get ⟨j, hj⟩).2
    ∧ ((run es).created.get ⟨i, hi⟩).2 ≠ ((run es).created.get ⟨j, hj⟩).2 := by
  have hport : ∀ (k : Nat) (hk : k < (run es).created.length),
      ((run es).created.get ⟨k, hk⟩).2 = base_port + k := by
    intro k hk
    have hmap := run_created_snd es
    have hlen : ((run es).created.map Prod.snd).length = (run es).created.length :=
      List.length_map _ _
    have hk2 : k < ((run es).created.map Prod.snd).length := by omega
    have h1 : ((run es).created.map Prod.snd).get ⟨k, hk2⟩
        = ((run es).created.get ⟨k, hk⟩).2 := List.get_map _
    have hk3 : k < (List.range' base_port (createGids es).length).length := by
      rw [← hmap]; exact hk2
    have h2 : (List.range' base_port (createGids es).length).get ⟨k, hk3⟩
        = base_port + k := List.getElem_range'_1 k hk3
    rw [← h1]
    have := List.get_of_eq hmap ⟨k, hk2⟩
    rw [this, h2]
  rw [hport i hi, hport j hj]
  omega

theorem getElem?_concat {α : Type} (l : List α) (a : α) (k : Nat) :
    (l ++ [a])[k]? = if k = l.length then some a else l[k]? := by
  induction l generalizing k with
  | nil =>
    cases k with
    | zero => simp
    | succ n => simp
  | cons x xs ih =>
    cases k with
    | zero => simp
    | succ n => simpa using ih n

theorem step_create_st (σ : Sys) (gid : String) (now : Nat) (name : String)
    (files : Option Files) (repo : Option String) :
    (step σ (Event.create gid now name files repo)).st.deployments
      = dictInsert σ.st.deployments gid
          (create_deployment σ.st gid now name files repo).deployment := rfl

theorem step_create_jobs (σ : Sys) (gid : String) (now : Nat) (name : String)
    (files : Option Files) (repo : Option String) :
    (step σ (Event.create gid now name files repo)).jobs
      = σ.jobs ++ [(gid, files)] := rfl

theorem step_create_ran (σ : Sys) (gid : String) (now : Nat) (name : String)
    (files : Option Files) (repo : Option String) :
    (step σ (Event.create gid now name files repo)).ran = σ.ran := rfl

theorem step_finish_ran_mem (σ : Sys) (k : Nat) (outcome : Option String)
    (now : Nat) (hk : k ∈ σ.ran) : step σ (Event.finish k outcome now) = σ := by
  simp [step, hk]

theorem step_finish_no_job (σ : Sys) (k : Nat) (outcome : Option String)
    (now : Nat) (hk : k ∉ σ.ran) (hj : σ.jobs[k]? = none) :
    step σ (Event.finish k outcome now) = σ := by
  simp [step, hk, hj]

theorem step_finish_fire (σ : Sys) (k : Nat) (outcome : Option String)
    (now : Nat) (j : String × Option Files) (hk : k ∉ σ.ran)
    (hj : σ.jobs[k]? = some j) :
    step σ (Event.finish k outcome now)
      = ⟨⟨deploy_project σ.st.deployments j.1 j.2 outcome now, σ.st.next_port⟩,
         σ.jobs, k :: σ.ran, σ.created⟩ := by
  simp [step, hk, hj]

theorem deploy_project_get_ok (deps : List (String × Deployment)) (id : String)
    (files : Option Files) (now : Nat) :
    dictGet (deploy_project deps id files none now) id
      = (dictGet deps id).map (fun d => set_live d now) :=
  dictGet_modify_self _ _ _

theorem deploy_project_get_fail (deps : List (String × Deployment)) (id : String)
    (files : Option Files) (msg : String) (now : Nat) :
    dictGet (deploy_project deps id files (some msg) now) id
      = (dictGet deps id).map (fun d => set_failed d msg) :=
  dictGet_modify_self _ _ _

theorem deploy_project_get_other (deps : List (String × Deployment)) (id : String)
    (files : Option Files) (outcome : Option String) (now : Nat) (id1 : String)
    (h : id1 ≠ id) :
    dictGet (deploy_project deps id files outcome now) id1 = dictGet deps id1 := by
  cases outcome with
  | none => exact dictGet_modify_other _ _ _ _ h
  | some msg => exact dictGet_modify_other _ _ _ _ h

theorem deploy_project_isSome (deps : List (String × Deployment)) (id : String)
    (files : Option Files) (outcome : Option String) (now : Nat) (id1 : String) :
    (dictGet (deploy_project deps id files outcome now) id1).isSome
      = (dictGet deps id1).isSome := by
  cases outcome with
  | none => exact dictGet_modify_isSome _ _ _ _
  | some msg => exact dictGet_modify_isSome _ _ _ _

theorem step_jobsInMap (σ : Sys) (e : Event) (h : JobsInMap σ) :
    JobsInMap (step σ e) := by
  cases e with
  | create gid now name files repo =>
    intro k j hj
    rw [step_create_jobs, getElem?_concat] at hj
    rw [step_create_st]
    by_cases hk : k = σ.jobs.length
    · rw [if_pos hk] at hj
      injection hj with hj
      subst hj
      rw [dictGet_insert_self]
      rfl
    · rw [if_neg hk] at hj
      by_cases hid : j.1 = gid
      · rw [hid, dictGet_insert_self]; rfl
      · rw [dictGet_insert_other _ _ _ _ hid]
        exact h k j hj
  | finish k0 outcome now =>
    by_cases hk0 : k0 ∈ σ.ran
    · rw [step_finish_ran_mem σ k0 outcome now hk0]; exact h
    · cases hj0 : σ.jobs[k0]? with
      | none => rw [step_finish_no_job σ k0 outcome now hk0 hj0]; exact h
      | some j0 =>
        rw [step_finish_fire σ k0 outcome now j0 hk0 hj0]
        intro k j hj
        rw [deploy_project_isSome]
        exact h k j hj

theorem foldl_jobsInMap (es : List Event) :
    ∀ σ : Sys, JobsInMap σ → JobsInMap (es.foldl step σ) := by
  induction es with
  | nil => intro σ h; exact h
  | cons e es ih => intro σ h; exact ih _ (step_jobsInMap σ e h)

theorem run_jobsInMap (es : List Event) : JobsInMap (run es) := by
  apply foldl_jobsInMap
  intro k j hj
  simp [init] at hj

theorem jobs_fst_index_inj {σ : Sys} (hn : (σ.jobs.map Prod.fst).Nodup)
    {k k0 : Nat} {j j0 : String × Option Files}
    (hj : σ.jobs[k]? = some j) (hj0 : σ.jobs[k0]? = some j0)
    (heq : j.1 = j0.1) : k = k0 := by
  have h1 : (σ.jobs.map Prod.fst)[k]? = some j.1 := by
    rw [List.getElem?_map, hj]; rfl
  have h2 : (σ.jobs.map Prod.fst)[k0]? = some j0.1 := by
    rw [List.getElem?_map, hj0]; rfl
  have hk : k < (σ.jobs.map Prod.fst).length := by
    rcases List.getElem?_eq_some.mp h1 with ⟨h, _⟩; exact h
  exact List.getElem?_inj hk hn (by rw [h1, h2, heq])

theorem step_good (σ : Sys) (e : Event) (hg : GoodSys σ) (hf : FreshEvent σ e) :
    GoodSys (step σ e) := by
  cases e with
  | create gid now name files repo =>
    have hgid : gid ∉ σ.jobs.map Prod.fst := hf
    refine ⟨?_, ?_, ?_, ?_, ?_⟩
    · rw [step_create_jobs, List.map_append, List.nodup_append]
      refine ⟨hg.nodup, by simp, ?_⟩
      intro a ha hb
      simp at hb
      subst hb
      exact hgid ha
    · intro id d hd
      rw [step_create_st] at hd
      rw [step_create_jobs, List.map_append]
      by_cases hid : id = gid
      · subst hid; simp
      · rw [dictGet_insert_other _ _ _ _ hid] at hd
        exact List.mem_append_left _ (hg.mapSub id d hd)
    · intro k j d hj hd
      rw [step_create_jobs, getElem?_concat] at hj
      rw [step_create_st] at hd
      rw [step_create_ran]
      by_cases hk : k = σ.jobs.length
      · rw [if_pos hk] at hj
        injection hj with hj
        subst hj
        rw [dictGet_insert_self] at hd
        injection hd with hd
        subst hd
        refine ⟨fun _ hmem => ?_, fun _ => rfl⟩
        have := hg.ranBound k hmem
        omega
      · rw [if_neg hk] at hj
        have hmem : j.1 ∈ σ.jobs.map Prod.fst :=
          List.mem_map_of_mem Prod.fst (List.getElem?_mem hj)
        have hne : j.1 ≠ gid := fun hcon => hgid (hcon ▸ hmem)
        rw [dictGet_insert_other _ _ _ _ hne] at hd
        exact hg.statusRan k j d hj hd
    · intro id d hd
      rw [step_create_st] at hd
      by_cases hid : id = gid
      · subst hid
        rw [dictGet_insert_self] at hd
        injection hd with hd
        subst hd
        simp [create_deployment]
      · rw [dictGet_insert_other _ _ _ _ hid] at hd
        exact hg.depLive id d hd
    · intro k hk
      rw [step_create_jobs, List.length_append]
      have := hg.ranBound k hk
      omega
  | finish k0 outcome now =>
    by_cases hk0 : k0 ∈ σ.ran
    · rw [step_finish_ran_mem σ k0 outcome now hk0]; exact hg
    · cases hj0 : σ.jobs[k0]? with
      | none => rw [step_finish_no_job σ k0 outcome now hk0 hj0]; exact hg
      | some j0 =>
        rw [step_finish_fire σ k0 outcome now j0 hk0 hj0]
        refine ⟨hg.nodup, ?_, ?_, ?_, ?_⟩
        · intro id d hd
          have hsome : (dictGet σ.st.deployments id).isSome := by
            rw [← deploy_project_isSome σ.st.deployments j0.1 j0.2 outcome now id]
            rw [hd]; rfl
          obtain ⟨d0, hd0⟩ := Option.isSome_iff_exists.mp hsome
          exact hg.mapSub id d0 hd0
        · intro k j d hj hd
          by_cases heq : j.1 = j0.1
          · have hkk : k = k0 := jobs_fst_index_inj hg.nodup hj hj0 heq
            subst hkk
            rw [heq] at hd
            cases outcome with
            | none =>
              rw [deploy_project_get_ok] at hd
              rcases hmap : dictGet σ.st.deployments j0.1 with _ | d0
              · rw [hmap] at hd; simp at hd
              · rw [hmap] at hd
                injection hd with hd
                subst hd
                refine ⟨fun hdep => ?_, fun hmem => ?_⟩
                · exact absurd hdep (by simp [set_live])
                · exact absurd (List.mem_cons_self _ _) hmem
            | some msg =>
              rw [deploy_project_get_fail] at hd
              rcases hmap : dictGet σ.st.deployments j0.1 with _ | d0
              · rw [hmap] at hd; simp at hd
              · rw [hmap] at hd
                injection hd with hd
                subst hd
                refine ⟨fun hdep => ?_, fun hmem => ?_⟩
                · exact absurd hdep (by simp [set_failed])
                · exact absurd (List.mem_cons_self _ _) hmem
          · rw [deploy_project_get_other _ _ _ _ _ _ heq] at hd
            have hbase := hg.statusRan k j d hj hd
            have hkk : k ≠ k0 := fun hcon => by
              rw [hcon, hj0] at hj
              injection hj with hj
              exact heq (by rw [hj])
            rw [hbase]
            simp [List.mem_cons, hkk]
        · intro id d hd
          by_cases hid : id = j0.1
          · rw [hid] at hd
            cases outcome with
            | none =>
              rw [deploy_project_get_ok] at hd
              rcases hmap : dictGet σ.st.deployments j0.1 with _ | d0
              · rw [hmap] at hd; simp at hd
              · rw [hmap] at hd
                injection hd with hd
                subst hd
                simp [set_live]
            | some msg =>
              rw [deploy_project_get_fail] at hd
              rcases hmap : dictGet σ.st.deployments j0.1 with _ | d0
              · rw [hmap] at hd; simp at hd
              · rw [hmap] at hd
                injection hd with hd
                subst hd
                have hst : d0.status = Status.deploying :=
                  (hg.statusRan k0 j0 d0 hj0 hmap).mpr hk0
                have hdep := hg.depLive j0.1 d0 hmap
                rw [hst] at hdep
                simp at hdep
                simp [set_failed, hdep]
          · rw [deploy_project_get_other _ _ _ _ _ _ hid] at hd
            exact hg.depLive id d hd
        · intro k hk
          rcases List.mem_cons.mp hk with h | h
          · subst h
            rcases List.getElem?_eq_some.mp hj0 with ⟨hlt, _⟩
            exact hlt
          · exact hg.ranBound k h

/-- One step never touches a record whose status is terminal, along
fresh traces: a fresh create inserts under a new id, and a finish either
touches a still-deploying record or is a no-op. -/
theorem step_keeps_terminal (σ : Sys) (e : Event) (hg : GoodSys σ)
    (hf : FreshEvent σ e) (id : String) (d : Deployment)
    (hd : dictGet σ.st.deployments id = some d)
    (hterm : d.status ≠ Status.deploying) :
    dictGet (step σ e).st.deployments id = some d := by
  cases e with
  | create gid now name files repo =>
    have hgid : gid ∉ σ.jobs.map Prod.fst := hf
    have hmem := hg.mapSub id d hd
    have hne : id ≠ gid := fun h => hgid (h ▸ hmem)
    rw [step_create_st, dictGet_insert_other _ _ _ _ hne]
    exact hd
  | finish k0 outcome now =>
    by_cases hk0 : k0 ∈ σ.ran
    · rw [step_finish_ran_mem σ k0 outcome now hk0]; exact hd
    · cases hj0 : σ.jobs[k0]? with
      | none => rw [step_finish_no_job σ k0 outcome now hk0 hj0]; exact hd
      | some j0 =>
        rw [step_finish_fire σ k0 outcome now j0 hk0 hj0]
        by_cases hid : id = j0.1
        · subst hid
          exact absurd ((hg.statusRan k0 j0 d hj0 hd).mpr hk0) hterm
        · rw [deploy_project_get_other _ _ _ _ _ _ hid]
          exact hd

theorem foldl_good (es : List Event) :
    ∀ σ : Sys, GoodSys σ → FreshList σ es → GoodSys (es.foldl step σ) := by
  induction es with
  | nil => intro σ hg _; exact hg
  | cons e es ih =>
    intro σ hg hf
    exact ih _ (step_good σ e hg hf.1) hf.2

theorem foldl_keeps_terminal (es : List Event) :
    ∀ σ : Sys, GoodSys σ → FreshList σ es →
    ∀ (id : String) (d : Deployment), dictGet σ.st.deployments id = some d →
    d.status ≠ Status.deploying →
    dictGet (es.foldl step σ).st.deployments id = some d := by
  induction es with
  | nil => intro σ _ _ id d hd _; exact hd
  | cons e es ih =>
    intro σ hg hf id d hd hterm
    exact ih _ (step_good σ e hg hf.1) hf.2 id d
      (step_keeps_terminal σ e hg hf.1 id d hd hterm) hterm

theorem freshList_of_nodup (es : List Event) :
    ∀ σ : Sys, (σ.jobs.map Prod.fst ++ createGids es).Nodup → FreshList σ es := by
  induction es with
  | nil => intro σ _; trivial
  | cons e es ih =>
    intro σ h
    cases e with
    | create gid now name files repo =>
      rw [createGids_cons_create, List.append_cons] at h
      constructor
      · intro hmem
        have h1 := (List.nodup_append.mp h).1
        rw [List.nodup_append] at h1
        exact h1.2.2 hmem (by simp)
      · apply ih
        rw [step_create_jobs, List.map_append]
        simpa using h
    | finish k outcome now =>
      rw [createGids_cons_finish] at h
      refine ⟨trivial, ih (step σ (Event.finish k outcome now)) ?_⟩
      rw [(step_finish_fields σ k outcome now).2.1]
      exact h

theorem goodSys_init : GoodSys init := by
  refine ⟨by simp [init], ?_, ?_, ?_, ?_⟩
  · intro id d hd; simp [init, dictGet] at hd
  · intro k j d hj hd; simp [init] at hj
  · intro id d hd; simp [init, dictGet] at hd
  · intro k hk; simp [init] at hk

/-- Any trace whose generated ids are pairwise distinct keeps the
inductive invariant. -/
theorem run_good (es : List Event) (h : (createGids es).Nodup) :
    GoodSys (run es) :=
  foldl_good es init goodSys_init
    (freshList_of_nodup es init (by simpa [init] using h))

/-- Claim C5, counterexample: two creates that draw the same generated
id overwrite one record; the first background body completes and marks
it live, then the second fails and marks the same record failed,
leaving the terminal state live. -/
theorem c5_counterexample : ¬ C5Statement := by
  intro h
  have h2 := h
    [Event.create "a" 0 "p" none none, Event.create "a" 1 "q" none none,
     Event.finish 0 none 2]
    [Event.finish 1 (some "boom") 3] "a"
    ⟨"a", "q", Status.live, 8002, "http://localhost:8002", 1, none, some 2, none⟩
    ⟨"a", "q", Status.failed, 8002, "http://localhost:8002", 1, none, some 2,
     some "boom"⟩
    (by decide) (Or.inl rfl) (by decide)
  exact absurd h2 (by decide)

/-- Claim C5, amended: every record enters the map with status deploying
as part of its create call, and along any trace whose generated ids are
pairwise distinct, a record that is live or failed never changes status
again. -/
theorem c5_state_machine :
    (∀ (es : List Event) (gid : String) (now : Nat) (name : String)
        (files : Option Files) (repo : Option String),
      (dictGet (run (es ++ [Event.create gid now name files repo])).st.deployments
          gid).map Deployment.status = some Status.deploying)
    ∧ (∀ (es es' : List Event) (id : String) (d d' : Deployment),
        (createGids (es ++ es')).Nodup →
        dictGet (run es).st.deployments id = some d →
        (d.status = Status.live ∨ d.status = Status.failed) →
        dictGet (run (es ++ es')).st.deployments id = some d' →
        d'.status = d.status) := by
  constructor
  · intro es gid now name files repo
    rw [run_concat, step_create_st, dictGet_insert_self]
    rfl
  · intro es es' id d d' hnod hd hterm hd'
    have hterm2 : d.status ≠ Status.deploying := by
      rcases hterm with h | h <;> simp [h]
    have hnodL : (createGids es).Nodup := by
      rw [createGids_append] at hnod
      exact (List.nodup_append.mp hnod).1
    have hgood : GoodSys (run es) := run_good es hnodL
    have hfresh : FreshList (run es) es' := by
      apply freshList_of_nodup
      rw [run_jobs_fst, ← createGids_append]
      exact hnod
    have hkeep := foldl_keeps_terminal es' (run es) hgood hfresh id d hd hterm2
    rw [run_append] at hd'
    rw [hkeep] at hd'
    injection hd' with hd'
    rw [← hd']

/-- Claim C5, witness: a concrete distinct-id trace in which a record
goes live and a later create leaves its status untouched. -/
theorem c5_witness :
    (dictGet (run ([] ++ [Event.create "a" 0 "p" none none])).st.deployments
        "a").map Deployment.status = some Status.deploying
    ∧ (⟨"a", "p", Status.failed, 8001, "http://localhost:8001", 0, none, none,
        some "x"⟩ : Deployment).status
      = (⟨"a", "p", Status.failed, 8001, "http://localhost:8001", 0, none, none,
        some "x"⟩ : Deployment).status :=
  ⟨c5_state_machine.1 [] "a" 0 "p" none none,
   c5_state_machine.2 [Event.create "a" 0 "p" none none,
       Event.finish 0 (some "x") 1]
     [Event.create "b" 2 "q" none none] "a"
     ⟨"a", "p", Status.failed, 8001, "http://localhost:8001", 0, none, none,
      some "x"⟩
     ⟨"a", "p", Status.failed, 8001, "http://localhost:8001", 0, none, none,
      some "x"⟩
     (by decide) (by decide) (Or.inr rfl) (by decide)⟩

/-- Claim C8, counterexample: after an id collision, the shared record
ends failed while still carrying the deployed_at written when the first
background body marked it live. -/
theorem c8_counterexample : ¬ C8Statement := by
  intro h
  have h2 := h
    [Event.create "a" 0 "p" none none, Event.create "a" 1 "q" none none,
     Event.finish 0 none 2, Event.finish 1 (some "boom") 3] "a"
    ⟨"a", "q", Status.failed, 8002, "http://localhost:8002", 1, none, some 2,
     some "boom"⟩
    (by decide)
  exact absurd h2 (by decide)

/-- Claim C8, amended: along any trace whose generated ids are pairwise
distinct, deployed_at is set on a record exactly when the record is
live: fresh records have none, failed records never gain one, and the
success path stamps it together with the transition to live. -/
theorem c8_deployed_at_iff_live (es : List Event) (id : String) (d : Deployment)
    (h : (createGids es).Nodup)
    (hd : dictGet (run es).st.deployments id = some d) :
    d.deployed_at.isSome ↔ d.status = Status.live :=
  (run_good es h).depLive id d hd

/-- Claim C8, witness: a live record of a concrete distinct-id trace
carries deployed_at. -/
theorem c8_witness :
    ((⟨"a", "p", Status.live, 8001, "http://localhost:8001", 0, none, some 1,
        none⟩ : Deployment).deployed_at.isSome
      ↔ (⟨"a", "p", Status.live, 8001, "http://localhost:8001", 0, none, some 1,
        none⟩ : Deployment).status = Status.live) :=
  c8_deployed_at_iff_live
    [Event.create "a" 0 "p" none none, Event.finish 0 none 1] "a"
    ⟨"a", "p", Status.live, 8001, "http://localhost:8001", 0, none, some 1, none⟩
    (by decide) (by decide)

/-- Claim C3, counterexample: an exception whose str() is empty (for
example a bare Exception()) leaves error = "" on the failed record. -/
theorem c3_counterexample : ¬ C3Statement := by
  intro h
  obtain ⟨d, hd, hst, s, hs, hne⟩ :=
    h [Event.create "a" 0 "p" none none] 0 "" 1 ("a", none) (by decide)
      (by decide)
  rw [show dictGet (run ([Event.create "a" 0 "p" none none]
        ++ [Event.finish 0 (some "") 1])).st.deployments "a"
      = some ⟨"a", "p", Status.failed, 8001, "http://localhost:8001", 0, none,
         none, some ""⟩ from by decide] at hd
  injection hd with hd
  rw [← hd] at hs
  injection hs with hs
  exact hne hs.symm

/-- Claim C3, amended: when the background body of a spawned job raises
an exception with message msg, the record under that job's id ends with
status failed and error equal to msg (possibly empty), the record stays
in the deployments map, and the create call is unaffected, having
already returned. -/
theorem c3_failed_record_preserved (es : List Event) (k : Nat) (msg : String)
    (now : Nat) (j : String × Option Files)
    (hj : (run es).jobs[k]? = some j) (hk : k ∉ (run es).ran) :
    ∃ d, dictGet (run (es ++ [Event.finish k (some msg) now])).st.deployments j.1
          = some d
      ∧ d.status = Status.failed ∧ d.error = some msg := by
  rw [run_concat, step_finish_fire (run es) k (some msg) now j hk hj]
  have hsome := run_jobsInMap es k j hj
  obtain ⟨d0, hd0⟩ := Option.isSome_iff_exists.mp hsome
  refine ⟨set_failed d0 msg, ?_, rfl, rfl⟩
  rw [show (⟨⟨deploy_project (run es).st.deployments j.1 j.2 (some msg) now,
        (run es).st.next_port⟩, (run es).jobs, k :: (run es).ran,
        (run es).created⟩ : Sys).st.deployments
      = deploy_project (run es).st.deployments j.1 j.2 (some msg) now from rfl]
  rw [deploy_project_get_fail, hd0]
  rfl

/-- Claim C3, witness: a concrete failing background body records its
message and keeps the record. -/
theorem c3_witness :
    ∃ d, dictGet (run ([Event.create "a" 0 "p" none none]
          ++ [Event.finish 0 (some "disk full") 1])).st.deployments
        (("a", (none : Option Files)) : String × Option Files).1 = some d
      ∧ d.status = Status.failed ∧ d.error = some "disk full" :=
  c3_failed_record_preserved [Event.create "a" 0 "p" none none] 0 "disk full" 1
    ("a", none) (by decide) (by decide)

/-- Claim C2, witness: in a trace with two creates, the first port is
strictly below the second and differs from it. -/
theorem c2_witness :
    ((run [Event.create "a" 0 "p" none none,
           Event.create "b" 1 "q" none none]).created.get ⟨0, by decide⟩).2
      < ((run [Event.create "a" 0 "p" none none,
               Event.create "b" 1 "q" none none]).created.get ⟨1, by decide⟩).2
    ∧ ((run [Event.create "a" 0 "p" none none,
             Event.create "b" 1 "q" none none]).created.get ⟨0, by decide⟩).2
      ≠ ((run [Event.create "a" 0 "p" none none,
               Event.create "b" 1 "q" none none]).created.get ⟨1, by decide⟩).2 :=
  c2_ports_strictly_increasing _ 0 1 (by decide) (by decide) (by decide)

end DeployPlat
